import Mathlib

/-!
Verification of the glass-coating-plots application.

This file gives a shallow embedding, over `ℚ`, of the chart-construction
logic of the repository: the scatter-plot label-placement heuristic
(`adjust_label_positions` in `src/plots/scatter_plot.py`), the scatter
builder's range/margin computation, the bar-chart normalization
(`src/plots/bar_chart.py`), the radial-chart normalization
(`src/plots/radial_plots.py`) and the parallel-coordinates data
preparation (`src/plots/parallel_coordinates.py`), together with theorems
settling the specification's claims about them.
-/

namespace GlassCoating

/-- An occupied label zone: centre coordinates, width and height, mirroring
the `(x_center, y_center, width, height)` tuples of `occupied_zones` in
`adjust_label_positions`. -/
structure Zone where
  cx : ℚ
  cy : ℚ
  w : ℚ
  h : ℚ
deriving DecidableEq, Repr

/-- The `position_offsets` dictionary of `adjust_label_positions`. -/
def position_offsets (pos : String) : ℚ × ℚ :=
  if pos = "top center" then (0, 8/100)
  else if pos = "bottom center" then (0, -8/100)
  else if pos = "middle left" then (-12/100, 0)
  else if pos = "middle right" then (12/100, 0)
  else if pos = "top left" then (-10/100, 6/100)
  else if pos = "top right" then (10/100, 6/100)
  else if pos = "bottom left" then (-10/100, -6/100)
  else if pos = "bottom right" then (10/100, -6/100)
  else (0, 0)

/-- The `position_priority` list of `adjust_label_positions`. -/
def position_priority : List String :=
  ["top right", "top left", "bottom right", "bottom left",
   "top center", "middle right", "middle left", "bottom center"]

/-- `label_width = 0.15` in `check_overlap`. -/
def label_width : ℚ := 15/100

/-- `label_height = 0.10` in `check_overlap`. -/
def label_height : ℚ := 10/100

/-- The rectangle-overlap test used inside `check_overlap`: a candidate
label centred at `(x + offset_x, y + offset_y)` (width `label_width`,
height `label_height`) against one occupied zone. -/
def overlaps (z : Zone) (x y offset_x offset_y : ℚ) : Prop :=
  |x + offset_x - z.cx| < (label_width + z.w) / 2 ∧
  |y + offset_y - z.cy| < (label_height + z.h) / 2

instance (z : Zone) (x y ox oy : ℚ) : Decidable (overlaps z x y ox oy) := by
  unfold overlaps; infer_instance

/-- The `check_overlap` helper of `adjust_label_positions`: the candidate
label overlaps some zone of `occupied_zones`. -/
def check_overlap (occupied_zones : List Zone) (x y offset_x offset_y : ℚ) : Prop :=
  ∃ z ∈ occupied_zones, overlaps z x y offset_x offset_y

instance (zs : List Zone) (x y ox oy : ℚ) : Decidable (check_overlap zs x y ox oy) :=
  List.decidableBEx _ zs

/-- The inner `for pos in position_priority` loop of
`adjust_label_positions`: return the first position of the list whose
candidate rectangle does not overlap any occupied zone, or `none` if
every candidate overlaps (the `for`/`else` case). -/
def choose_position (occupied_zones : List Zone) (x y : ℚ) : List String → Option String
  | [] => none
  | pos :: rest =>
      if check_overlap occupied_zones x y (position_offsets pos).1 (position_offsets pos).2
      then choose_position occupied_zones x y rest
      else some pos

/-- The zone recorded for a chosen position: centred at the normalized
point plus the offset, with fixed width `0.15` and height `0.10`. -/
def zone_for (x y : ℚ) (pos : String) : Zone :=
  ⟨x + (position_offsets pos).1, y + (position_offsets pos).2, label_width, label_height⟩

/-- One iteration of the placement loop body of `adjust_label_positions`:
try each priority position; on success append its zone; the `for`/`else`
fallback keeps the default `chosen_position = "top center"` and still
appends its zone. -/
def place_point (occupied_zones : List Zone) (x_norm y_norm : ℚ) : String × List Zone :=
  match choose_position occupied_zones x_norm y_norm position_priority with
  | some pos => (pos, occupied_zones ++ [zone_for x_norm y_norm pos])
  | none => ("top center", occupied_zones ++ [zone_for x_norm y_norm "top center"])

/-- The main loop of `adjust_label_positions` over already-normalized
points, threading the occupied-zone list. -/
def place_all : List (ℚ × ℚ) → List Zone → List String × List Zone
  | [], occupied_zones => ([], occupied_zones)
  | p :: ps, occupied_zones =>
      let step := place_point occupied_zones p.1 p.2
      let rest := place_all ps step.2
      (step.1 :: rest.1, rest.2)

/-- Minimum of a list of rationals (`numpy`/`pandas` `.min()` on a
nonempty collection; the default 0 for the empty list is never reached by
the callers). -/
def list_min : List ℚ → ℚ
  | [] => 0
  | x :: xs => xs.foldl min x

/-- Maximum of a list of rationals (`numpy`/`pandas` `.max()` on a
nonempty collection). -/
def list_max : List ℚ → ℚ
  | [] => 0
  | x :: xs => xs.foldl max x

/-- The `normalize_coords` inner function of `adjust_label_positions`:
`(x - x_vals.min()) / x_range if x_range > 0 else 0.5`, and likewise
for `y`. -/
def normalize_coords (x_min y_min x_range y_range x y : ℚ) : ℚ × ℚ :=
  (if 0 < x_range then (x - x_min) / x_range else 1/2,
   if 0 < y_range then (y - y_min) / y_range else 1/2)

/-- The points of the plot dataframe after normalization, as consumed by
the placement loop of `adjust_label_positions`. -/
def normalized_points (pts : List (ℚ × ℚ)) (x_range y_range : ℚ) : List (ℚ × ℚ) :=
  pts.map (fun p =>
    normalize_coords (list_min (pts.map Prod.fst)) (list_min (pts.map Prod.snd))
      x_range y_range p.1 p.2)

/-- `adjust_label_positions(plot_df, x_axis, y_axis, x_range, y_range)`:
the list of chosen text positions, one per input point. -/
def adjust_label_positions (pts : List (ℚ × ℚ)) (x_range y_range : ℚ) : List String :=
  (place_all (normalized_points pts x_range y_range) []).1

/-- The occupied-zone list after the first `i` normalized points have
been placed. -/
def occupied_before (npts : List (ℚ × ℚ)) (i : ℕ) : List Zone :=
  (place_all (npts.take i) []).2

/-- The `i`-th normalized point (defaulting to the origin out of range). -/
def normalized_at (pts : List (ℚ × ℚ)) (x_range y_range : ℚ) (i : ℕ) : ℚ × ℚ :=
  ((normalized_points pts x_range y_range).get? i).getD (0, 0)

/-- The zone a point's candidate label occupies at a given position
(`occupied_zones` entries are exactly these). -/
def candidate_zone (p : ℚ × ℚ) (pos : String) : Zone :=
  zone_for p.1 p.2 pos

/-- Well-separated normalized point sets: candidate label rectangles of
distinct points can never collide, whichever offsets are chosen. -/
def well_separated (npts : List (ℚ × ℚ)) : Prop :=
  npts.Pairwise (fun p q =>
    ∀ o1 ∈ position_priority, ∀ o2 ∈ position_priority,
      ¬ overlaps (candidate_zone q o2) p.1 p.2
        (position_offsets o1).1 (position_offsets o1).2)

/-- The range computation of `create_scatter_plot`:
`(max - min) if (max > min) else max(abs(min), 1.0)`. -/
def builder_range (vals : List ℚ) : ℚ :=
  if list_min vals < list_max vals then list_max vals - list_min vals
  else max |list_min vals| 1

/-- A row of the coating table: identifying text attributes plus the
numeric metric values, indexed in `numeric_cols` order and nullable. -/
structure Row where
  supplier : String
  coating : String
  glass_name : String
  glass_type : String
  values : List (Option ℚ)
deriving DecidableEq, Repr

/-- The value of row `r` on the numeric column of index `k` (missing when
the cell is null or the index is out of range). -/
def row_val (r : Row) (k : ℕ) : Option ℚ :=
  (r.values.get? k).getD none

/-- `plot_df = current_df.dropna(subset=[x_axis, y_axis])` of
`create_scatter_plot`: rows lacking either selected metric are dropped. -/
def scatter_plot_df (rows : List Row) (kx ky : ℕ) : List Row :=
  rows.filter (fun r => (row_val r kx).isSome && (row_val r ky).isSome)

/-- The plotted points of the scatter chart, one per retained row. -/
def scatter_points (rows : List Row) (kx ky : ℕ) : List (ℚ × ℚ) :=
  (scatter_plot_df rows kx ky).map
    (fun r => ((row_val r kx).getD 0, (row_val r ky).getD 0))

/-- `x_range` as computed by `create_scatter_plot` (line 146). -/
def scatter_x_range (rows : List Row) (kx ky : ℕ) : ℚ :=
  builder_range ((scatter_points rows kx ky).map Prod.fst)

/-- `y_range` as computed by `create_scatter_plot` (line 147). -/
def scatter_y_range (rows : List Row) (kx ky : ℕ) : ℚ :=
  builder_range ((scatter_points rows kx ky).map Prod.snd)

/-- `margin_x = x_range * 0.15`. -/
def scatter_margin_x (rows : List Row) (kx ky : ℕ) : ℚ :=
  scatter_x_range rows kx ky * (15/100)

/-- The x-axis display range `[x_min - margin_x, x_max + margin_x]`. -/
def scatter_x_axis_range (rows : List Row) (kx ky : ℕ) : ℚ × ℚ :=
  (list_min ((scatter_points rows kx ky).map Prod.fst) - scatter_margin_x rows kx ky,
   list_max ((scatter_points rows kx ky).map Prod.fst) + scatter_margin_x rows kx ky)

/-- The label positions of the scatter chart, as `create_scatter_plot`
invokes `adjust_label_positions` (line 204). -/
def scatter_label_positions (rows : List Row) (kx ky : ℕ) : List String :=
  adjust_label_positions (scatter_points rows kx ky)
    (scatter_x_range rows kx ky) (scatter_y_range rows kx ky)

/-- The scatter builder's outcome: `none` models the early return with the
no-valid-data warning when no rows survive the drop. -/
def scatter_result (rows : List Row) (kx ky : ℕ) :
    Option (List (ℚ × ℚ) × List String) :=
  if scatter_plot_df rows kx ky = [] then none
  else some (scatter_points rows kx ky, scatter_label_positions rows kx ky)

/-- `bar_df = current_df.dropna(subset=metrics_to_compare)` of
`create_bar_chart`. -/
def bar_df (rows : List Row) (metrics : List ℕ) : List Row :=
  rows.filter (fun r => metrics.all (fun k => (row_val r k).isSome))

/-- The raw values of one selected metric over the retained bar rows. -/
def bar_values (rows : List Row) (metrics : List ℕ) (k : ℕ) : List ℚ :=
  (bar_df rows metrics).map (fun r => (row_val r k).getD 0)

/-- The per-metric normalization of `create_bar_chart` (lines 44-51):
divide by the maximum when it is positive, else emit zeros. -/
def bar_normalized (vals : List ℚ) : List ℚ :=
  if 0 < list_max vals then vals.map (fun v => v / list_max vals)
  else vals.map (fun _ => 0)

/-- The bar builder's outcome: `none` models the early return with the
no-valid-data warning when no rows survive the drop. -/
def bar_result (rows : List Row) (metrics : List ℕ) :
    Option (List (List ℚ)) :=
  if bar_df rows metrics = [] then none
  else some (metrics.map (fun k => bar_normalized (bar_values rows metrics k)))

/-- All numeric cells of the table are nonnegative (every numeric column
of the data-entry grid is configured with `min_value=0.0` in
`src/main.py`, so tables built through the app satisfy this). -/
def table_nonneg (rows : List Row) : Prop :=
  ∀ r ∈ rows, ∀ o ∈ r.values, ∀ x : ℚ, o = some x → 0 ≤ x

/-- `current_df[col].max()` of `create_radial_plots`: the maximum of the
non-null entries of a column, `none` when there are none (pandas `NaN`). -/
def col_max (rows : List Row) (k : ℕ) : Option ℚ :=
  match rows.filterMap (fun r => row_val r k) with
  | [] => none
  | v :: vs => some (vs.foldl max v)

/-- `global_max[col] = max_val if pd.notna(max_val) and max_val > 0 else 1.0`
(lines 38-42 of `src/plots/radial_plots.py`), computed over the full
table `current_df`. -/
def global_max (rows : List Row) (k : ℕ) : ℚ :=
  match col_max rows k with
  | some m => if 0 < m then m else 1
  | none => 1

/-- The number of non-null cells of a row (pandas' non-NA count). -/
def count_some (l : List (Option ℚ)) : ℕ :=
  (l.filter Option.isSome).length

/-- The rows of one supplier that survive
`dropna(subset=numeric_cols, thresh=len(numeric_cols)//2)`
(lines 50-53 of `src/plots/radial_plots.py`): kept iff at least
`n / 2` (floor) non-null metric values. -/
def radial_retained (rows : List Row) (s : String) (n : ℕ) : List Row :=
  (rows.filter (fun r => r.supplier == s)).filter
    (fun r => decide (n / 2 ≤ count_some r.values))

/-- The normalized radii of one radial trace (lines 66-76): present values
divided by the full-table `global_max`, missing values rendered at 0. -/
def row_radii (rows : List Row) (n : ℕ) (r : Row) : List ℚ :=
  (List.range n).map (fun k =>
    match row_val r k with
    | some v => v / global_max rows k
    | none => 0)

/-- The hover values of one radial trace (lines 66-76): the raw value when
present, null when missing. -/
def row_actuals (r : Row) (n : ℕ) : List (Option ℚ) :=
  (List.range n).map (fun k => row_val r k)

/-- The radii the claim describes instead: per-metric maxima computed over
the supplier's subset of rows rather than over the full table. Stated from
the claim's words, for comparison with `row_radii`. -/
def row_radii_supplier_subset (rows : List Row) (s : String) (n : ℕ) (r : Row) : List ℚ :=
  row_radii (rows.filter (fun q => q.supplier == s)) n r

/-- The data preparation of `create_parallel_coordinates` (lines 18-20):
`parallel_df[numeric_cols] = parallel_df[numeric_cols].fillna(0)` — every
row is kept and missing cells are imputed with 0. -/
def parallel_df (rows : List Row) : List Row :=
  rows.map (fun r => { r with values := r.values.map (fun o => some (o.getD 0)) })

section OffsetEval

/-- Evaluation of `position_offsets` at each of the eight keys. -/
lemma position_offsets_top_right : position_offsets "top right" = (10/100, 6/100) := by
  simp [position_offsets]

lemma position_offsets_top_left : position_offsets "top left" = (-10/100, 6/100) := by
  simp [position_offsets]

lemma position_offsets_bottom_right : position_offsets "bottom right" = (10/100, -6/100) := by
  simp [position_offsets]

lemma position_offsets_bottom_left : position_offsets "bottom left" = (-10/100, -6/100) := by
  simp [position_offsets]

lemma position_offsets_top_center : position_offsets "top center" = (0, 8/100) := by
  simp [position_offsets]

lemma position_offsets_bottom_center : position_offsets "bottom center" = (0, -8/100) := by
  simp [position_offsets]

lemma position_offsets_middle_left : position_offsets "middle left" = (-12/100, 0) := by
  simp [position_offsets]

lemma position_offsets_middle_right : position_offsets "middle right" = (12/100, 0) := by
  simp [position_offsets]

end OffsetEval

section PlacementLemmas

lemma normalized_points_length (pts : List (ℚ × ℚ)) (x_range y_range : ℚ) :
    (normalized_points pts x_range y_range).length = pts.length := by
  simp [normalized_points]

lemma place_all_fst_length (pts : List (ℚ × ℚ)) :
    ∀ occ : List Zone, (place_all pts occ).1.length = pts.length := by
  induction pts with
  | nil => intro occ; rfl
  | cons p ps ih => intro occ; simp [place_all, ih]

/-- The output of the placement loop at index `i`, and the occupied-zone
list one step later, are obtained by running `place_point` on the state
after the first `i` points. -/
lemma place_all_step (pts : List (ℚ × ℚ)) (i : ℕ) :
    ∀ occ : List Zone, i < pts.length →
      (place_all pts occ).1.get? i =
        some (place_point ((place_all (pts.take i) occ).2)
          ((pts.get? i).getD (0, 0)).1 ((pts.get? i).getD (0, 0)).2).1 ∧
      (place_all (pts.take (i + 1)) occ).2 =
        (place_point ((place_all (pts.take i) occ).2)
          ((pts.get? i).getD (0, 0)).1 ((pts.get? i).getD (0, 0)).2).2 := by
  induction pts generalizing i with
  | nil => intro occ h; simp at h
  | cons p ps ih =>
      intro occ hi
      cases i with
      | zero => constructor <;> simp [place_all]
      | succ j =>
          have hj : j < ps.length := Nat.lt_of_succ_lt_succ hi
          have h := ih j (place_point occ p.1 p.2).2 hj
          constructor
          · simpa [place_all] using h.1
          · simpa [place_all] using h.2

lemma choose_position_of_prefix_overlap (occ : List Zone) (x y : ℚ) :
    ∀ (l1 : List String) (pos : String) (l2 : List String),
      (∀ q ∈ l1, check_overlap occ x y (position_offsets q).1 (position_offsets q).2) →
      ¬ check_overlap occ x y (position_offsets pos).1 (position_offsets pos).2 →
      choose_position occ x y (l1 ++ pos :: l2) = some pos := by
  intro l1
  induction l1 with
  | nil =>
      intro pos l2 _ hpos
      rw [List.nil_append, choose_position, if_neg hpos]
  | cons q l1 ih =>
      intro pos l2 hall hpos
      rw [List.cons_append, choose_position, if_pos (hall q (by simp))]
      exact ih pos l2 (fun r hr => hall r (by simp [hr])) hpos

lemma choose_position_of_all_overlap (occ : List Zone) (x y : ℚ) :
    ∀ l : List String,
      (∀ q ∈ l, check_overlap occ x y (position_offsets q).1 (position_offsets q).2) →
      choose_position occ x y l = none := by
  intro l
  induction l with
  | nil => intro _; rfl
  | cons q l ih =>
      intro hall
      rw [choose_position, if_pos (hall q (by simp))]
      exact ih (fun r hr => hall r (by simp [hr]))

lemma place_point_of_choose_some (occ : List Zone) (x y : ℚ) (pos : String)
    (h : choose_position occ x y position_priority = some pos) :
    place_point occ x y = (pos, occ ++ [zone_for x y pos]) := by
  simp [place_point, h]

lemma place_point_of_choose_none (occ : List Zone) (x y : ℚ)
    (h : choose_position occ x y position_priority = none) :
    place_point occ x y = ("top center", occ ++ [zone_for x y "top center"]) := by
  simp [place_point, h]

end PlacementLemmas

section C1C2

/-- C1: `adjust_label_positions` returns exactly one position per point in
input order (empty input gives the empty list), and whenever the priority
list splits as `l1 ++ pos :: l2` with every offset of `l1` overlapping an
occupied rectangle and `pos` not overlapping, the point processed at
index `i` is assigned `pos` — the first acceptable offset in the fixed
priority order — and its rectangle (width 0.15, height 0.10, centred at
the normalized point plus the offset) is appended to the occupied list. -/
theorem c1_first_acceptable_position
    (pts : List (ℚ × ℚ)) (x_range y_range : ℚ) (i : ℕ) (hi : i < pts.length)
    (pos : String) (l1 l2 : List String)
    (hsplit : position_priority = l1 ++ pos :: l2)
    (hprev : ∀ q ∈ l1, check_overlap
        (occupied_before (normalized_points pts x_range y_range) i)
        (normalized_at pts x_range y_range i).1 (normalized_at pts x_range y_range i).2
        (position_offsets q).1 (position_offsets q).2)
    (hpos : ¬ check_overlap (occupied_before (normalized_points pts x_range y_range) i)
        (normalized_at pts x_range y_range i).1 (normalized_at pts x_range y_range i).2
        (position_offsets pos).1 (position_offsets pos).2) :
    (adjust_label_positions pts x_range y_range).length = pts.length ∧
    adjust_label_positions [] x_range y_range = [] ∧
    (adjust_label_positions pts x_range y_range).get? i = some pos ∧
    occupied_before (normalized_points pts x_range y_range) (i + 1) =
      occupied_before (normalized_points pts x_range y_range) i ++
        [zone_for (normalized_at pts x_range y_range i).1
          (normalized_at pts x_range y_range i).2 pos] := by
  have hlen := normalized_points_length pts x_range y_range
  have hi' : i < (normalized_points pts x_range y_range).length := by
    rw [hlen]; exact hi
  have hstep := place_all_step (normalized_points pts x_range y_range) i [] hi'
  rw [show (place_all ((normalized_points pts x_range y_range).take i) []).2
      = occupied_before (normalized_points pts x_range y_range) i from rfl,
    show (((normalized_points pts x_range y_range).get? i).getD (0, 0))
      = normalized_at pts x_range y_range i from rfl] at hstep
  have hchoose : choose_position (occupied_before (normalized_points pts x_range y_range) i)
      (normalized_at pts x_range y_range i).1 (normalized_at pts x_range y_range i).2
      position_priority = some pos := by
    rw [hsplit]
    exact choose_position_of_prefix_overlap _ _ _ l1 pos l2 hprev hpos
  have hpp := place_point_of_choose_some _ _ _ _ hchoose
  refine ⟨?_, rfl, ?_, ?_⟩
  · show (place_all (normalized_points pts x_range y_range) []).1.length = pts.length
    rw [place_all_fst_length, hlen]
  · show (place_all (normalized_points pts x_range y_range) []).1.get? i = some pos
    rw [hstep.1, hpp]
  · show (place_all ((normalized_points pts x_range y_range).take (i + 1)) []).2 = _
    rw [hstep.2, hpp]

/-- C1 witness: on the single point `(0, 0)` with ranges 1, the first
priority offset `"top right"` is acceptable and is returned. -/
theorem c1_witness :
    (adjust_label_positions [((0 : ℚ), 0)] 1 1).get? 0 = some "top right" :=
  (c1_first_acceptable_position [((0 : ℚ), 0)] 1 1 0 (by norm_num) "top right" []
    ["top left", "bottom right", "bottom left",
      "top center", "middle right", "middle left", "bottom center"]
    rfl (by simp)
    (by simp [check_overlap, occupied_before, place_all])).2.2.1

set_option maxHeartbeats 8000000 in
/-- C2 counterexample: five coincident points; for the fifth point every
one of the eight candidate offsets overlaps an occupied rectangle, and
the code assigns it `"top center"` (the `chosen_position` default), not
`"top right"`, the first offset of the priority order. -/
theorem c2_counterexample :
    (∀ pos ∈ position_priority,
      check_overlap
        (occupied_before (normalized_points [((0 : ℚ), 0), (0, 0), (0, 0), (0, 0), (0, 0)] 1 1) 4)
        (normalized_at [((0 : ℚ), 0), (0, 0), (0, 0), (0, 0), (0, 0)] 1 1 4).1
        (normalized_at [((0 : ℚ), 0), (0, 0), (0, 0), (0, 0), (0, 0)] 1 1 4).2
        (position_offsets pos).1 (position_offsets pos).2) ∧
    (adjust_label_positions [((0 : ℚ), 0), (0, 0), (0, 0), (0, 0), (0, 0)] 1 1).get? 4 =
      some "top center" ∧
    position_priority.get? 0 = some "top right" ∧
    ("top center" : String) ≠ "top right" := by
  refine ⟨?_, ?_, rfl, by decide⟩
  · norm_num [position_priority, occupied_before, normalized_points, normalize_coords,
      normalized_at, list_min, place_all, place_point, choose_position, check_overlap,
      position_offsets_top_right, position_offsets_top_left, position_offsets_bottom_right,
      position_offsets_bottom_left, position_offsets_top_center, position_offsets_bottom_center,
      position_offsets_middle_left, position_offsets_middle_right,
      zone_for, label_width, label_height, overlaps, abs_lt]
  · norm_num [adjust_label_positions, normalized_points, normalize_coords, list_min,
      place_all, place_point, choose_position, check_overlap, position_priority,
      position_offsets_top_right, position_offsets_top_left, position_offsets_bottom_right,
      position_offsets_bottom_left, position_offsets_top_center, position_offsets_bottom_center,
      position_offsets_middle_left, position_offsets_middle_right,
      zone_for, label_width, label_height, overlaps, abs_lt]

/-- C2 (amended): when every one of the eight candidate offsets of a point
overlaps an already-occupied rectangle, `adjust_label_positions` assigns
that point the default position `"top center"` (the fifth offset of the
priority order, not the first), and still appends the corresponding
rectangle to the occupied list. -/
theorem c2_fallback_top_center
    (pts : List (ℚ × ℚ)) (x_range y_range : ℚ) (i : ℕ) (hi : i < pts.length)
    (hall : ∀ pos ∈ position_priority,
      check_overlap (occupied_before (normalized_points pts x_range y_range) i)
        (normalized_at pts x_range y_range i).1 (normalized_at pts x_range y_range i).2
        (position_offsets pos).1 (position_offsets pos).2) :
    (adjust_label_positions pts x_range y_range).get? i = some "top center" ∧
    occupied_before (normalized_points pts x_range y_range) (i + 1) =
      occupied_before (normalized_points pts x_range y_range) i ++
        [zone_for (normalized_at pts x_range y_range i).1
          (normalized_at pts x_range y_range i).2 "top center"] := by
  have hi' : i < (normalized_points pts x_range y_range).length := by
    rw [normalized_points_length]; exact hi
  have hstep := place_all_step (normalized_points pts x_range y_range) i [] hi'
  rw [show (place_all ((normalized_points pts x_range y_range).take i) []).2
      = occupied_before (normalized_points pts x_range y_range) i from rfl,
    show (((normalized_points pts x_range y_range).get? i).getD (0, 0))
      = normalized_at pts x_range y_range i from rfl] at hstep
  have hchoose : choose_position (occupied_before (normalized_points pts x_range y_range) i)
      (normalized_at pts x_range y_range i).1 (normalized_at pts x_range y_range i).2
      position_priority = none :=
    choose_position_of_all_overlap _ _ _ position_priority hall
  have hpp := place_point_of_choose_none _ _ _ hchoose
  constructor
  · show (place_all (normalized_points pts x_range y_range) []).1.get? i = _
    rw [hstep.1, hpp]
  · show (place_all ((normalized_points pts x_range y_range).take (i + 1)) []).2 = _
    rw [hstep.2, hpp]

set_option maxHeartbeats 8000000 in
/-- C2 witness: the amended fallback behaviour holds at the fifth of five
coincident points. -/
theorem c2_witness :
    (adjust_label_positions [((0 : ℚ), 0), (0, 0), (0, 0), (0, 0), (0, 0)] 1 1).get? 4 =
      some "top center" :=
  (c2_fallback_top_center [((0 : ℚ), 0), (0, 0), (0, 0), (0, 0), (0, 0)] 1 1 4 (by norm_num)
    (by norm_num [position_priority, occupied_before, normalized_points, normalize_coords,
      normalized_at, list_min, place_all, place_point, choose_position, check_overlap,
      position_offsets_top_right, position_offsets_top_left, position_offsets_bottom_right,
      position_offsets_bottom_left, position_offsets_top_center, position_offsets_bottom_center,
      position_offsets_middle_left, position_offsets_middle_right,
      zone_for, label_width, label_height, overlaps, abs_lt])).1

end C1C2

section C3

lemma foldl_min_all_eq (c : ℚ) :
    ∀ xs : List ℚ, (∀ v ∈ xs, v = c) → xs.foldl min c = c := by
  intro xs
  induction xs with
  | nil => intro _; rfl
  | cons x xs ih =>
      intro h
      have hx : x = c := h x (by simp)
      simp only [List.foldl_cons, hx, min_self]
      exact ih (fun v hv => h v (by simp [hv]))

lemma list_min_all_eq (vals : List ℚ) (c : ℚ) (hne : vals ≠ [])
    (h : ∀ v ∈ vals, v = c) : list_min vals = c := by
  cases vals with
  | nil => exact absurd rfl hne
  | cons x xs =>
      have hx : x = c := h x (by simp)
      subst hx
      exact foldl_min_all_eq x xs (fun v hv => h v (by simp [hv]))

lemma builder_range_pos (vals : List ℚ) : 0 < builder_range vals := by
  unfold builder_range
  split
  · next h => exact sub_pos.2 h
  · exact lt_of_lt_of_le zero_lt_one (le_max_right _ 1)

/-- C3 counterexample: two rows sharing the x-value 2 (zero observed
x-range). As invoked by the scatter builder, the passed `x_range` is
`max(abs(x_min), 1.0) = 2 > 0`, so `normalize_coords` takes its division
branch and every point's normalized x-value is `0`, not `0.5`. -/
theorem c3_counterexample :
    list_min ([((2 : ℚ), 0), (2, 1)].map Prod.fst) =
      list_max ([((2 : ℚ), 0), (2, 1)].map Prod.fst) ∧
    builder_range ([((2 : ℚ), 0), (2, 1)].map Prod.fst) = 2 ∧
    (normalized_points [((2 : ℚ), 0), (2, 1)]
        (builder_range ([((2 : ℚ), 0), (2, 1)].map Prod.fst))
        (builder_range ([((2 : ℚ), 0), (2, 1)].map Prod.snd))).map Prod.fst = [0, 0] ∧
    (0 : ℚ) ≠ 1 / 2 := by
  refine ⟨by norm_num [list_min, list_max], ?_, ?_, by norm_num⟩
  · norm_num [builder_range, list_min, list_max, abs_two, max_def, min_def]
  · norm_num [normalized_points, normalize_coords, builder_range, list_min, list_max,
      abs_two, max_def, min_def]

/-- C3 (amended): the scatter builder passes
`x_range = (max - min) if max > min else max(abs(min), 1.0)` (and likewise
for `y_range`), which is always positive, so the `0.5` branch of
`normalize_coords` is unreachable from the builder; when the observed
range of a coordinate is zero (all points share that coordinate value)
every point's normalized value for that coordinate is
`(value - min) / range = 0`, not `0.5` — proven here for the x and the y
coordinate alike. -/
theorem c3_builder_zero_range_normalizes_to_zero
    (pts : List (ℚ × ℚ)) (x_range y_range : ℚ) (c : ℚ) (i : ℕ) (hi : i < pts.length) :
    0 < builder_range (pts.map Prod.fst) ∧
    0 < builder_range (pts.map Prod.snd) ∧
    ((∀ p ∈ pts, p.1 = c) →
      (normalized_at pts (builder_range (pts.map Prod.fst)) y_range i).1 = 0) ∧
    ((∀ p ∈ pts, p.2 = c) →
      (normalized_at pts x_range (builder_range (pts.map Prod.snd)) i).2 = 0) := by
  have hne : pts ≠ [] := by
    intro h; rw [h] at hi; simp at hi
  have hget : pts.get? i = some (pts.get ⟨i, hi⟩) := List.get?_eq_get hi
  refine ⟨builder_range_pos _, builder_range_pos _, ?_, ?_⟩
  · intro hall
    have hmin : list_min (pts.map Prod.fst) = c := by
      refine list_min_all_eq _ c (by simpa using hne) ?_
      intro v hv
      obtain ⟨p, hp, rfl⟩ := List.mem_map.1 hv
      exact hall p hp
    have hpc : (pts.get ⟨i, hi⟩).1 = c := hall _ (List.get_mem pts i hi)
    unfold normalized_at normalized_points
    rw [List.get?_map, hget]
    simp only [Option.map_some', Option.getD_some]
    unfold normalize_coords
    simp only [hmin, hpc]
    rw [if_pos (builder_range_pos (pts.map Prod.fst))]
    simp
  · intro hall
    have hmin : list_min (pts.map Prod.snd) = c := by
      refine list_min_all_eq _ c (by simpa using hne) ?_
      intro v hv
      obtain ⟨p, hp, rfl⟩ := List.mem_map.1 hv
      exact hall p hp
    have hpc : (pts.get ⟨i, hi⟩).2 = c := hall _ (List.get_mem pts i hi)
    unfold normalized_at normalized_points
    rw [List.get?_map, hget]
    simp only [Option.map_some', Option.getD_some]
    unfold normalize_coords
    simp only [hmin, hpc]
    rw [if_pos (builder_range_pos (pts.map Prod.snd))]
    simp

/-- C3 witness: on two coincident points (zero observed range in both
coordinates), the builder-invoked normalization sends both the x and the
y coordinate of the first point to 0. -/
theorem c3_witness :
    (normalized_at [((2 : ℚ), 3), (2, 3)]
        (builder_range ([((2 : ℚ), 3), (2, 3)].map Prod.fst))
        (builder_range ([((2 : ℚ), 3), (2, 3)].map Prod.snd)) 0).1 = 0 ∧
    (normalized_at [((2 : ℚ), 3), (2, 3)]
        (builder_range ([((2 : ℚ), 3), (2, 3)].map Prod.fst))
        (builder_range ([((2 : ℚ), 3), (2, 3)].map Prod.snd)) 0).2 = 0 :=
  ⟨(c3_builder_zero_range_normalizes_to_zero [((2 : ℚ), 3), (2, 3)]
      (builder_range ([((2 : ℚ), 3), (2, 3)].map Prod.fst))
      (builder_range ([((2 : ℚ), 3), (2, 3)].map Prod.snd)) 2 0 (by norm_num)).2.2.1
      (by simp),
   (c3_builder_zero_range_normalizes_to_zero [((2 : ℚ), 3), (2, 3)]
      (builder_range ([((2 : ℚ), 3), (2, 3)].map Prod.fst))
      (builder_range ([((2 : ℚ), 3), (2, 3)].map Prod.snd)) 3 0 (by norm_num)).2.2.2
      (by simp)⟩

end C3

section C4

lemma overlaps_cand_comm (p q : ℚ × ℚ) (o1 o2 : String) :
    overlaps (candidate_zone q o2) p.1 p.2
      (position_offsets o1).1 (position_offsets o1).2 ↔
    overlaps (candidate_zone p o1) q.1 q.2
      (position_offsets o2).1 (position_offsets o2).2 := by
  unfold overlaps candidate_zone zone_for
  rw [abs_sub_comm (p.1 + (position_offsets o1).1), abs_sub_comm (p.2 + (position_offsets o1).2)]

lemma mem_position_priority_top_right : "top right" ∈ position_priority := by
  simp [position_priority]

/-- Under well-separation, the placement loop chooses `"top right"` for
every point and records exactly the corresponding candidate zones. -/
lemma place_all_separated (npts : List (ℚ × ℚ)) :
    ∀ occ : List Zone,
      (∀ z ∈ occ, ∀ p ∈ npts, ∀ o ∈ position_priority,
        ¬ overlaps z p.1 p.2 (position_offsets o).1 (position_offsets o).2) →
      well_separated npts →
      place_all npts occ =
        (List.replicate npts.length "top right",
         occ ++ npts.map (fun p => candidate_zone p "top right")) := by
  induction npts with
  | nil => intro occ _ _; simp [place_all]
  | cons p ps ih =>
      intro occ hocc hsep
      obtain ⟨hrel, htail⟩ := List.pairwise_cons.1 hsep
      have hnotr : ¬ check_overlap occ p.1 p.2
          (position_offsets "top right").1 (position_offsets "top right").2 := by
        rintro ⟨z, hz, hov⟩
        exact hocc z hz p (by simp) "top right" mem_position_priority_top_right hov
      have hchoose : choose_position occ p.1 p.2 position_priority = some "top right" := by
        rw [show position_priority = "top right" :: ["top left", "bottom right", "bottom left",
          "top center", "middle right", "middle left", "bottom center"] from rfl,
          choose_position, if_neg hnotr]
      have hpp : place_point occ p.1 p.2 =
          ("top right", occ ++ [candidate_zone p "top right"]) :=
        place_point_of_choose_some _ _ _ _ hchoose
      have hocc' : ∀ z ∈ occ ++ [candidate_zone p "top right"], ∀ q ∈ ps,
          ∀ o ∈ position_priority,
          ¬ overlaps z q.1 q.2 (position_offsets o).1 (position_offsets o).2 := by
        intro z hz q hq o ho
        rcases List.mem_append.1 hz with h | h
        · exact hocc z h q (by simp [hq]) o ho
        · have hz' : z = candidate_zone p "top right" := by simpa using h
          subst hz'
          rw [show candidate_zone p "top right" = candidate_zone p "top right" from rfl,
            overlaps_cand_comm q p o "top right"]
          exact hrel q hq "top right" mem_position_priority_top_right o ho
      have hres := ih (occ ++ [candidate_zone p "top right"]) hocc' htail
      simp only [place_all, hpp, hres]
      simp [List.replicate_succ, List.append_assoc]

lemma occupied_before_separated (npts : List (ℚ × ℚ))
    (hsep : well_separated npts) (i : ℕ) :
    occupied_before npts i =
      (npts.take i).map (fun p => candidate_zone p "top right") := by
  unfold occupied_before
  rw [place_all_separated (npts.take i) [] (by simp)
    (List.Pairwise.sublist (List.take_sublist i npts) hsep)]
  simp

lemma no_overlap_at_step (npts : List (ℚ × ℚ)) (hsep : well_separated npts)
    (i : ℕ) (hi : i < npts.length) :
    ¬ check_overlap (occupied_before npts i)
      ((npts.get? i).getD (0, 0)).1 ((npts.get? i).getD (0, 0)).2
      (position_offsets "top right").1 (position_offsets "top right").2 := by
  rw [occupied_before_separated npts hsep i]
  rintro ⟨z, hz, hov⟩
  obtain ⟨q, hq, rfl⟩ := List.mem_map.1 hz
  have hsplit : npts.take i ++ npts.drop i = npts := List.take_append_drop i npts
  have hsep2 : ((npts.take i) ++ (npts.drop i)).Pairwise (fun p q =>
      ∀ o1 ∈ position_priority, ∀ o2 ∈ position_priority,
        ¬ overlaps (candidate_zone q o2) p.1 p.2
          (position_offsets o1).1 (position_offsets o1).2) := by
    rw [hsplit]; exact hsep
  obtain ⟨-, -, hcross⟩ := List.pairwise_append.1 hsep2
  have hisome : npts.get? i = some (npts.get ⟨i, hi⟩) := List.get?_eq_get hi
  have h0 : (npts.drop i).get? 0 = some (npts.get ⟨i, hi⟩) := by
    rw [List.get?_drop, Nat.add_zero, hisome]
  have hmem : ((npts.get? i).getD (0, 0)) ∈ npts.drop i := by
    rw [hisome, Option.getD_some]
    exact List.get?_mem h0
  have hrel := hcross q hq _ hmem "top right" mem_position_priority_top_right
    "top right" mem_position_priority_top_right
  rw [overlaps_cand_comm] at hov
  exact hrel hov

set_option maxHeartbeats 4000000 in
/-- C4 counterexample: the two-point set `{(0,0), (1,1)}` (already in
normalized coordinates, ranges 1) is well-separated and has size ≤ 8, yet
the heuristic assigns both points the same offset `"top right"` — the
positions are not pairwise distinct. -/
theorem c4_counterexample :
    well_separated (normalized_points [((0 : ℚ), 0), (1, 1)] 1 1) ∧
    ([((0 : ℚ), 0), (1, 1)] : List (ℚ × ℚ)).length ≤ 8 ∧
    adjust_label_positions [((0 : ℚ), 0), (1, 1)] 1 1 = ["top right", "top right"] ∧
    ¬ (adjust_label_positions [((0 : ℚ), 0), (1, 1)] 1 1).Nodup := by
  have heval : adjust_label_positions [((0 : ℚ), 0), (1, 1)] 1 1 =
      ["top right", "top right"] := by
    norm_num [adjust_label_positions, normalized_points, normalize_coords, list_min,
      place_all, place_point, choose_position, check_overlap, position_priority,
      position_offsets_top_right, position_offsets_top_left, position_offsets_bottom_right,
      position_offsets_bottom_left, position_offsets_top_center, position_offsets_bottom_center,
      position_offsets_middle_left, position_offsets_middle_right,
      zone_for, label_width, label_height, overlaps, abs_lt, min_def]
  refine ⟨?_, by norm_num, heval, by rw [heval]; simp⟩
  norm_num [well_separated, normalized_points, normalize_coords, list_min,
    List.pairwise_cons, position_priority,
    position_offsets_top_right, position_offsets_top_left, position_offsets_bottom_right,
    position_offsets_bottom_left, position_offsets_top_center, position_offsets_bottom_center,
    position_offsets_middle_left, position_offsets_middle_right,
    candidate_zone, zone_for, label_width, label_height, overlaps, abs_lt, min_def]

/-- C4 (amended): for every point set of size ≤ 8 that is well-separated
in normalized coordinates, no point is placed through the forced fallback
branch — every point is placed through the acceptable branch, and each
receives the first priority offset `"top right"` (so the assigned offsets
are all equal, not pairwise distinct). -/
theorem c4_well_separated_no_fallback
    (pts : List (ℚ × ℚ)) (x_range y_range : ℚ)
    (hlen : pts.length ≤ 8)
    (hsep : well_separated (normalized_points pts x_range y_range)) :
    adjust_label_positions pts x_range y_range = List.replicate pts.length "top right" ∧
    ∀ i, i < pts.length →
      choose_position (occupied_before (normalized_points pts x_range y_range) i)
        (normalized_at pts x_range y_range i).1 (normalized_at pts x_range y_range i).2
        position_priority = some "top right" := by
  constructor
  · show (place_all (normalized_points pts x_range y_range) []).1 = _
    rw [place_all_separated (normalized_points pts x_range y_range) [] (by simp) hsep]
    rw [normalized_points_length]
  · intro i hi
    have hi' : i < (normalized_points pts x_range y_range).length := by
      rw [normalized_points_length]; exact hi
    have hno' : ¬ check_overlap (occupied_before (normalized_points pts x_range y_range) i)
        (normalized_at pts x_range y_range i).1 (normalized_at pts x_range y_range i).2
        (position_offsets "top right").1 (position_offsets "top right").2 :=
      no_overlap_at_step (normalized_points pts x_range y_range) hsep i hi'
    rw [show position_priority = "top right" :: ["top left", "bottom right", "bottom left",
      "top center", "middle right", "middle left", "bottom center"] from rfl,
      choose_position, if_neg hno']

set_option maxHeartbeats 4000000 in
/-- C4 witness: the amended statement applied to the well-separated
two-point set of the counterexample. -/
theorem c4_witness :
    adjust_label_positions [((0 : ℚ), 0), (1, 1)] 1 1 =
      List.replicate ([((0 : ℚ), 0), (1, 1)] : List (ℚ × ℚ)).length "top right" :=
  (c4_well_separated_no_fallback [((0 : ℚ), 0), (1, 1)] 1 1 (by norm_num)
    (by norm_num [well_separated, normalized_points, normalize_coords, list_min,
      List.pairwise_cons, position_priority,
      position_offsets_top_right, position_offsets_top_left, position_offsets_bottom_right,
      position_offsets_bottom_left, position_offsets_top_center, position_offsets_bottom_center,
      position_offsets_middle_left, position_offsets_middle_right,
      candidate_zone, zone_for, label_width, label_height, overlaps, abs_lt, min_def])).1

end C4

section C5

lemma scatter_points_cons (r : Row) (rs : List Row) (kx ky : ℕ) :
    scatter_points (r :: rs) kx ky =
      if ((row_val r kx).isSome && (row_val r ky).isSome) = true
      then ((row_val r kx).getD 0, (row_val r ky).getD 0) :: scatter_points rs kx ky
      else scatter_points rs kx ky := by
  simp only [scatter_points, scatter_plot_df, List.filter_cons]
  split <;> simp

lemma scatter_points_filterMap (rows : List Row) (kx ky : ℕ) :
    scatter_points rows kx ky =
      (rows.map (fun r => (row_val r kx, row_val r ky))).filterMap
        (fun c => c.1.bind (fun x => c.2.map (fun y => (x, y)))) := by
  induction rows with
  | nil => rfl
  | cons r rs ih =>
      rw [scatter_points_cons, List.map_cons, List.filterMap_cons]
      cases hx : row_val r kx <;> cases hy : row_val r ky <;> simp [hx, hy, ih]

/-- C5: the scatter label placement, as invoked by the builder (which
derives the ranges from the plotted points), is a deterministic function
of the input order and coordinates of the points alone: two tables whose
rows project to the same coordinate sequence on the selected axes receive
identical plotted points and identical label-position sequences, whatever
their other attributes are. -/
theorem c5_depends_only_on_coordinates (rows1 rows2 : List Row) (kx ky : ℕ)
    (h : rows1.map (fun r => (row_val r kx, row_val r ky)) =
         rows2.map (fun r => (row_val r kx, row_val r ky))) :
    scatter_points rows1 kx ky = scatter_points rows2 kx ky ∧
    scatter_label_positions rows1 kx ky = scatter_label_positions rows2 kx ky := by
  have hpts : scatter_points rows1 kx ky = scatter_points rows2 kx ky := by
    rw [scatter_points_filterMap, scatter_points_filterMap, h]
  refine ⟨hpts, ?_⟩
  unfold scatter_label_positions scatter_x_range scatter_y_range
  rw [hpts]

/-- Two tables with identical metric values but entirely different
supplier/coating/glass names. -/
def c5rows1 : List Row :=
  [⟨"Supplier One", "c1", "g1", "t1", [some 1, some 2]⟩,
   ⟨"S2", "c2", "g2", "t2", [some 3, some 4]⟩]

def c5rows2 : List Row :=
  [⟨"Renamed", "x", "", "", [some 1, some 2]⟩,
   ⟨"Y", "", "", "", [some 3, some 4]⟩]

/-- C5 witness: renaming every text attribute leaves the label positions
unchanged. -/
theorem c5_witness :
    scatter_label_positions c5rows1 0 1 = scatter_label_positions c5rows2 0 1 :=
  (c5_depends_only_on_coordinates c5rows1 c5rows2 0 1 rfl).2

end C5

section C6

lemma le_foldl_max (xs : List ℚ) : ∀ a : ℚ, a ≤ xs.foldl max a := by
  induction xs with
  | nil => intro a; exact le_refl a
  | cons x xs ih => intro a; exact le_trans (le_max_left a x) (ih (max a x))

lemma mem_le_foldl_max (xs : List ℚ) : ∀ a v : ℚ, v ∈ xs → v ≤ xs.foldl max a := by
  induction xs with
  | nil => intro a v hv; cases hv
  | cons x xs ih =>
      intro a v hv
      rcases List.mem_cons.1 hv with rfl | h
      · exact le_trans (le_max_right a v) (le_foldl_max xs (max a v))
      · exact ih (max a x) v h

lemma mem_le_list_max (vals : List ℚ) (v : ℚ) (hv : v ∈ vals) : v ≤ list_max vals := by
  cases vals with
  | nil => cases hv
  | cons x xs =>
      rcases List.mem_cons.1 hv with rfl | h
      · exact le_foldl_max xs v
      · exact mem_le_foldl_max xs x v h

lemma bar_values_nonneg (rows : List Row) (metrics : List ℕ) (k : ℕ)
    (hnn : table_nonneg rows) : ∀ v ∈ bar_values rows metrics k, 0 ≤ v := by
  intro v hv
  obtain ⟨r, hr, rfl⟩ := List.mem_map.1 hv
  have hr' : r ∈ rows := (List.mem_filter.1 hr).1
  cases hval : row_val r k with
  | none => simp [hval]
  | some x =>
      have hget : r.values.get? k = some (some x) := by
        unfold row_val at hval
        cases hg : r.values.get? k with
        | none => rw [hg] at hval; simp at hval
        | some o =>
            rw [hg] at hval
            simp only [Option.getD_some] at hval
            rw [hval]
      have hx : (0 : ℚ) ≤ x := hnn r hr' (some x) (List.get?_mem hget) x rfl
      simpa [hval] using hx

/-- C6: in the bar chart, every retained row's plotted value on a selected
metric equals the raw value divided by the maximum of that metric over
the retained rows when that maximum is positive, and 0 otherwise; with
the nonnegative-valued tables the data-entry grid produces (every numeric
column has `min_value=0.0`), every such normalized value lies in [0, 1]. -/
theorem c6_bar_normalized_unit_interval (rows : List Row) (metrics : List ℕ) (k : ℕ)
    (hk : k ∈ metrics) (hnn : table_nonneg rows) (i : ℕ)
    (hi : i < (bar_values rows metrics k).length) :
    ∃ q : ℚ, (bar_normalized (bar_values rows metrics k)).get? i = some q ∧
      q = (if 0 < list_max (bar_values rows metrics k)
        then ((bar_values rows metrics k).get? i).getD 0 /
          list_max (bar_values rows metrics k)
        else 0) ∧
      0 ≤ q ∧ q ≤ 1 := by
  have hv : (bar_values rows metrics k).get? i =
      some ((bar_values rows metrics k).get ⟨i, hi⟩) := List.get?_eq_get hi
  have hvmem : (bar_values rows metrics k).get ⟨i, hi⟩ ∈ bar_values rows metrics k :=
    List.get_mem _ i hi
  have hvnn : 0 ≤ (bar_values rows metrics k).get ⟨i, hi⟩ :=
    bar_values_nonneg rows metrics k hnn _ hvmem
  have hvle : (bar_values rows metrics k).get ⟨i, hi⟩ ≤ list_max (bar_values rows metrics k) :=
    mem_le_list_max _ _ hvmem
  by_cases hm : 0 < list_max (bar_values rows metrics k)
  · refine ⟨(bar_values rows metrics k).get ⟨i, hi⟩ / list_max (bar_values rows metrics k),
      ?_, ?_, div_nonneg hvnn (le_of_lt hm), (div_le_one hm).2 hvle⟩
    · unfold bar_normalized
      rw [if_pos hm, List.get?_map, hv]
      rfl
    · rw [if_pos hm, hv]
      rfl
  · refine ⟨0, ?_, by rw [if_neg hm], le_refl 0, zero_le_one⟩
    unfold bar_normalized
    rw [if_neg hm, List.get?_map, hv]
    rfl

def c6rows : List Row :=
  [⟨"A", "c", "", "", [some 2, some 4]⟩, ⟨"B", "d", "", "", [none, some 1]⟩]

/-- C6 witness: metric 0 over `c6rows` (the second row is dropped); the
first row's normalized value is well-defined and lies in [0, 1]. -/
theorem c6_witness :
    ∃ q : ℚ, (bar_normalized (bar_values c6rows [0] 0)).get? 0 = some q ∧
      q = (if 0 < list_max (bar_values c6rows [0] 0)
        then ((bar_values c6rows [0] 0).get? 0).getD 0 / list_max (bar_values c6rows [0] 0)
        else 0) ∧
      0 ≤ q ∧ q ≤ 1 :=
  c6_bar_normalized_unit_interval c6rows [0] 0 (by simp)
    (by norm_num [table_nonneg, c6rows]; simp) 0
    (by simp [bar_values, bar_df, c6rows, row_val])

end C6

section C7

def c7rowA : Row := ⟨"A", "c1", "", "", [some 2]⟩

def c7rows : List Row := [c7rowA, ⟨"B", "c2", "", "", [some 4]⟩]

/-- C7 counterexample: a one-metric table with two suppliers, A (value 2)
and B (value 4). The radial chart divides A's value by the full-table
maximum 4, plotting radius 1/2; normalizing over A's own subset of rows
(as the claim states) would plot radius 1. -/
theorem c7_counterexample :
    radial_retained c7rows "A" 1 = [c7rowA] ∧
    row_radii c7rows 1 c7rowA = [1 / 2] ∧
    row_radii_supplier_subset c7rows "A" 1 c7rowA = [1] ∧
    (1 / 2 : ℚ) ≠ 1 := by
  have hsub : c7rows.filter (fun q => q.supplier == "A") = [c7rowA] := by
    simp [c7rows, c7rowA]
  refine ⟨?_, ?_, ?_, by norm_num⟩
  · simp [radial_retained, hsub, count_some, c7rowA]
  · norm_num [row_radii, c7rows, c7rowA, global_max, col_max, row_val, max_def,
      List.range_succ, List.range_zero, List.filterMap_cons]
  · unfold row_radii_supplier_subset
    rw [hsub]
    norm_num [row_radii, c7rowA, global_max, col_max, row_val, max_def,
      List.range_succ, List.range_zero, List.filterMap_cons]

/-- C7 (amended): each plotted radius of a retained radial row equals the
row's raw metric value divided by the per-metric maximum computed over
the FULL table (`global_max` over `current_df`), not over the supplier's
subset of rows. -/
theorem c7_full_table_normalization (rows : List Row) (s : String) (n : ℕ) (r : Row)
    (hr : r ∈ radial_retained rows s n) (k : ℕ) (hk : k < n) (v : ℚ)
    (hv : row_val r k = some v) :
    (row_radii rows n r).get? k = some (v / global_max rows k) := by
  unfold row_radii
  rw [List.get?_map, List.get?_range hk]
  simp [hv]

/-- C7 witness: supplier A's single row, metric 0. -/
theorem c7_witness :
    (row_radii c7rows 1 c7rowA).get? 0 = some (2 / global_max c7rows 0) :=
  c7_full_table_normalization c7rows "A" 1 c7rowA
    (by simp [radial_retained, c7rows, c7rowA, count_some]) 0 (by norm_num) 2
    (by simp [row_val, c7rowA])

end C7

section C8

def c8rows : List Row := [⟨"A", "c", "", "", [none]⟩]

/-- C8 counterexample: the parallel-coordinates chart does not exclude a
row whose required metric is missing — it keeps the row and imputes the
missing cell with 0 (`fillna(0)`), contradicting "excluded ... by
per-chart filtering (no imputation)" for that chart type. -/
theorem c8_counterexample :
    c8rows.map Row.values = [[none]] ∧
    (parallel_df c8rows).length = 1 ∧
    (parallel_df c8rows).map Row.values = [[some (0 : ℚ)]] := by
  refine ⟨rfl, rfl, ?_⟩
  simp [parallel_df, c8rows]

/-- C8 (amended): the scatter and bar charts exclude exactly the rows
missing a required metric (no value alteration) and surface the
no-valid-data notice precisely when no rows remain; the
parallel-coordinates chart instead retains every row, imputing missing
cells with 0 (and the radial chart, per C10, drops only rows with more
than half their metrics missing). -/
theorem c8_per_chart_filtering (rows : List Row) (kx ky : ℕ) (metrics : List ℕ) (r : Row) :
    (r ∈ scatter_plot_df rows kx ky ↔
      r ∈ rows ∧ ((row_val r kx).isSome ∧ (row_val r ky).isSome)) ∧
    (r ∈ bar_df rows metrics ↔ r ∈ rows ∧ ∀ k ∈ metrics, (row_val r k).isSome) ∧
    (scatter_result rows kx ky = none ↔ scatter_plot_df rows kx ky = []) ∧
    (bar_result rows metrics = none ↔ bar_df rows metrics = []) ∧
    (parallel_df rows).length = rows.length := by
  refine ⟨?_, ?_, ?_, ?_, by simp [parallel_df]⟩
  · simp [scatter_plot_df, List.mem_filter]
  · simp [bar_df, List.mem_filter, List.all_eq_true]
  · by_cases h : scatter_plot_df rows kx ky = [] <;> simp [scatter_result, h]
  · by_cases h : bar_df rows metrics = [] <;> simp [bar_result, h]

/-- C8 witness: the scatter filtering characterization instantiated on
the one-row table with a missing value. -/
theorem c8_witness :
    (⟨"A", "c", "", "", [none]⟩ : Row) ∈ scatter_plot_df c8rows 0 0 ↔
      (⟨"A", "c", "", "", [none]⟩ : Row) ∈ c8rows ∧
      (((row_val ⟨"A", "c", "", "", [none]⟩ 0).isSome) ∧
        ((row_val ⟨"A", "c", "", "", [none]⟩ 0).isSome)) :=
  (c8_per_chart_filtering c8rows 0 0 [0] ⟨"A", "c", "", "", [none]⟩).1

end C8

section C9

def c9rows : List Row :=
  [⟨"AGC EU", "ipasol neutral 70/37", "Planibel ClearVision", "Low Iron",
    [some (34/100), some 59]⟩,
   ⟨"Guardian ME", "SN 70 T", "Guardian UltraClear", "Ultra Clear",
    [some (38/100), some 63]⟩]

/-- C9: on the two-row table with G-Value {0.34, 0.38} (column 0) and VLT
{59, 63} (column 1), the scatter chart plots exactly the two points
(0.34, 59) and (0.38, 63); the x-margin equals
(0.38 - 0.34) * 0.15 = 0.006 and is applied symmetrically, giving the
x-axis range [0.34 - 0.006, 0.38 + 0.006]. -/
theorem c9_two_point_scenario :
    scatter_points c9rows 0 1 = [(34/100, 59), (38/100, 63)] ∧
    scatter_margin_x c9rows 0 1 = (38/100 - 34/100) * (15/100) ∧
    scatter_margin_x c9rows 0 1 = 6/1000 ∧
    scatter_x_axis_range c9rows 0 1 = (34/100 - 6/1000, 38/100 + 6/1000) := by
  have hpts : scatter_points c9rows 0 1 = [(34/100, 59), (38/100, 63)] := by
    simp [scatter_points, scatter_plot_df, c9rows, row_val, List.filter_cons]
  refine ⟨hpts, ?_, ?_, ?_⟩ <;>
    norm_num [scatter_margin_x, scatter_x_range, scatter_x_axis_range, hpts,
      builder_range, list_min, list_max, min_def, max_def]

end C9

section C10

/-- C10: a row of the selected supplier is dropped from the radial chart
iff it has fewer than `n / 2` (floor) non-null values among the `n`
numeric metrics; a retained row is plotted over all `n` metrics, and a
metric whose value is missing is rendered at normalized radius 0 with a
null hover value, rather than the row or metric being excluded. -/
theorem c10_radial_row_retention (rows : List Row) (s : String) (n : ℕ) (r : Row)
    (hr : r ∈ rows) (hs : r.supplier = s) :
    (r ∈ radial_retained rows s n ↔ n / 2 ≤ count_some r.values) ∧
    (row_radii rows n r).length = n ∧
    (row_actuals r n).length = n ∧
    ∀ k, k < n → row_val r k = none →
      (row_radii rows n r).get? k = some 0 ∧ (row_actuals r n).get? k = some none := by
  refine ⟨?_, by simp [row_radii], by simp [row_actuals], ?_⟩
  · simp [radial_retained, List.mem_filter, hr, hs]
  · intro k hk hnone
    constructor
    · unfold row_radii
      rw [List.get?_map, List.get?_range hk]
      simp [hnone]
    · unfold row_actuals
      rw [List.get?_map, List.get?_range hk]
      simp [hnone]

def c10rows : List Row := [⟨"A", "c", "", "", [some 1, none]⟩]

/-- C10 witness: a retained row with one of two metrics missing renders
that metric at radius 0 with a null hover value. -/
theorem c10_witness :
    (row_radii c10rows 2 ⟨"A", "c", "", "", [some 1, none]⟩).get? 1 = some 0 ∧
    (row_actuals ⟨"A", "c", "", "", [some 1, none]⟩ 2).get? 1 = some none :=
  (c10_radial_row_retention c10rows "A" 2 ⟨"A", "c", "", "", [some 1, none]⟩
    (by simp [c10rows]) rfl).2.2.2 1 (by norm_num) (by simp [row_val])

end C10

end GlassCoating

